import Mathlib

/-!
The ion-sfu Sender: payload-type rewrite, RTCP feedback loop, REMB aggregation.

A shallow embedding of `pkg/sender.go`.

* Go structs become Lean structures with the same field names.
* `uint8`/`uint32`/`uint64` values are `Nat`; `uint64` arithmetic performed by the
  code is written with an explicit `% 2 ^ 64`.
* A Go `error` is `Option Err`, `none` being `nil`.
* A channel field of `Sender` is a `Chan`: either `nil`, on which a send blocks for ever,
  or made, in which case a send completes as long as the other side of the channel still
  takes values, and blocks for ever afterwards.  `NewSender` leaves the channels `nil`.
* In `rembLoop` the values received from `rembChan` are an input, and the packet an
  iteration sends on `rtcpCh` is an output of that iteration.
* `time.Now()` is an input: every call site receives the monotonic clock reading
  (nanoseconds, `Int`) it observed.
* The blocking `ReadRTCP` call is an input: the loop is run against the sequence of
  results the transport delivers, interleaved with `Close()` calls of other goroutines.
-/

namespace Sfu

/-! ## External data types (pion/rtp, pion/rtcp, pion/webrtc) -/

/-- Go `error` values the code distinguishes by identity, and all the others. -/
inductive Err where
  | EOF
  | ErrClosedPipe
  | other (msg : String)
deriving DecidableEq

/-- The `rtp.Header` struct. -/
structure Header where
  Version : Nat
  Padding : Bool
  Extension : Bool
  Marker : Bool
  PayloadOffset : Int
  PayloadType : Nat
  SequenceNumber : Nat
  Timestamp : Nat
  SSRC : Nat
  CSRC : List Nat
  ExtensionProfile : Nat
  ExtensionPayload : List Nat
deriving DecidableEq

/-- The `rtp.Packet` struct. -/
structure Packet where
  Header : Header
  Raw : List Nat
  Payload : List Nat
deriving DecidableEq

/-- The `rtcp.PictureLossIndication` struct. -/
structure PictureLossIndication where
  SenderSSRC : Nat
  MediaSSRC : Nat
deriving DecidableEq

/-- The `rtcp.FullIntraRequest` struct; each entry is (SSRC, SequenceNumber). -/
structure FullIntraRequest where
  SenderSSRC : Nat
  MediaSSRC : Nat
  FIR : List (Nat × Nat)
deriving DecidableEq

/-- The `rtcp.TransportLayerNack` struct; each pair is (PacketID, LostPackets). -/
structure TransportLayerNack where
  SenderSSRC : Nat
  MediaSSRC : Nat
  Nacks : List (Nat × Nat)
deriving DecidableEq

/-- The `rtcp.ReceiverEstimatedMaximumBitrate` struct. -/
structure ReceiverEstimatedMaximumBitrate where
  SenderSSRC : Nat
  Bitrate : Nat
  SSRCs : List Nat
deriving DecidableEq

/-- The dynamic type of an `rtcp.Packet` interface value, as the type switch of
`receiveRTCP` sees it.  `other` stands for every dynamic type the switch does not name
(sender and receiver reports, source descriptions, goodbye, raw packets, ...). -/
inductive RTCPPacket where
  | PictureLossIndication (p : PictureLossIndication)
  | FullIntraRequest (p : FullIntraRequest)
  | TransportLayerNack (p : TransportLayerNack)
  | ReceiverEstimatedMaximumBitrate (p : ReceiverEstimatedMaximumBitrate)
  | other (raw : List Nat)
deriving DecidableEq

/-- The `webrtc.RTCPFeedback` struct; `FeedbackType` is its field `Type`. -/
structure RTCPFeedback where
  FeedbackType : String
  Parameter : String
deriving DecidableEq

/-- The constant `webrtc.TypeRTCPFBGoogREMB`. -/
def TypeRTCPFBGoogREMB : String := "goog-remb"

/-- The constant `webrtc.TypeRTCPFBTransportCC`. -/
def TypeRTCPFBTransportCC : String := "transport-cc"

/-- The fields of `webrtc.RTPCodec` that the sender reads. -/
structure Codec where
  PayloadType : Nat
  RTCPFeedback : List RTCPFeedback
deriving DecidableEq

/-- A `webrtc.Track`: its negotiated codec and, as the record of the external effect of
`Track.WriteRTP`, the packets handed to it so far (oldest first). -/
structure Track where
  codec : Codec
  written : List Packet
deriving DecidableEq

/-- The error reported by the external primitive `webrtc.Track.WriteRTP`, as a function of
the packets the track was handed before and of the packet being written. -/
abbrev WriteOutcome := List Packet → Packet → Option Err

/-- The call `track.WriteRTP(pkt)`: the track is handed the packet, the primitive reports
its error. -/
def Track.WriteRTP (w : WriteOutcome) (t : Track) (pkt : Packet) : Track × Option Err :=
  ({ t with written := t.written ++ [pkt] }, w t.written pkt)

/-! ## Channels -/

/-- A Go channel as the one goroutine that sends on it sees it.  It is `nil` (declared,
never made), or made: then `sent` holds the values whose send has completed, oldest first,
and `takes` is the number of further sends that the other side of the channel (free buffer
slots, receives by other goroutines) will let complete. -/
inductive Chan (α : Type) where
  | nil
  | made (takes : Nat) (sent : List α)
deriving DecidableEq

/-- The values whose send on the channel has completed. -/
def Chan.sent {α : Type} : Chan α → List α
  | Chan.nil => []
  | Chan.made _ xs => xs

/-- The statement `ch <- v`: the channel afterwards, or `none` when the send never
completes (the channel is `nil`, or nothing takes the value) and the goroutine stays blocked
in it. -/
def Chan.send {α : Type} : Chan α → α → Option (Chan α)
  | Chan.nil, _ => none
  | Chan.made 0 _, _ => none
  | Chan.made (n + 1) xs, v => some (Chan.made n (xs ++ [v]))

/-! ## `SenderConfig`, `Sender` -/

/-- The `SenderConfig` struct. -/
structure SenderConfig where
  REMBFeedback : Bool
  MinBandwidth : Nat
  MaxBandwidth : Nat
deriving DecidableEq

/-- The `Sender` struct. -/
structure Sender where
  track : Track
  stop : Bool
  rtpCh : Chan Packet
  rtcpCh : Chan RTCPPacket
  useRemb : Bool
  rembChan : Chan ReceiverEstimatedMaximumBitrate
deriving DecidableEq

/-- The methods of `Sender` that are run as goroutines. -/
inductive Goroutine where
  | receiveRTCP
  | rembLoop
deriving DecidableEq

/-- The body of the `for _, feedback := range ...` loop of `NewSender`. -/
def NewSender.feedbackCase (s : Sender) (feedback : RTCPFeedback) : Sender :=
  if feedback.FeedbackType = TypeRTCPFBGoogREMB then { s with useRemb := true }
  else if feedback.FeedbackType = TypeRTCPFBTransportCC then s
  else s

/-- The constructor `NewSender(track, trans)`: the new sender and the goroutines started by
the `go` statements of the constructor, in program order.  The composite literal
`&Sender{track: track}` sets `track` only: the flags are false and the channels `nil`.  The
transceiver only supplies the reader used by `receiveRTCP`, which is an input of
`receiveRTCP` below. -/
def NewSender (track : Track) : Sender × List Goroutine :=
  let s : Sender :=
    { track := track, stop := false, rtpCh := Chan.nil, rtcpCh := Chan.nil, useRemb := false,
      rembChan := Chan.nil }
  let s := track.codec.RTCPFeedback.foldl NewSender.feedbackCase s
  (s, [Goroutine.receiveRTCP])

/-- The method `Sender.WriteRTP(pkt)`: the sender afterwards and the returned error. -/
def Sender.WriteRTP (w : WriteOutcome) (s : Sender) (pkt : Packet) : Sender × Option Err :=
  let pt := s.track.codec.PayloadType
  let newPkt : Packet := { pkt with Header := { pkt.Header with PayloadType := pt } }
  let r := s.track.WriteRTP w newPkt
  ({ s with track := r.1 }, r.2)

/-- The method `Sender.Close()`. -/
def Sender.Close (s : Sender) : Sender :=
  { s with stop := true }

/-- A run of `WriteRTP` calls on one sender, in call order: the sender afterwards and the
error returned by each call. -/
def writeAll (w : WriteOutcome) : Sender → List Packet → Sender × List (Option Err)
  | s, [] => (s, [])
  | s, pkt :: rest =>
    let r := s.WriteRTP w pkt
    let q := writeAll w r.1 rest
    (q.1, r.2 :: q.2)

/-! ## `receiveRTCP` -/

/-- Lines written by `receiveRTCP` through the `log` package (`log.Errorf`). -/
inductive LogLine where
  | rtcpErr (err : Err)
deriving DecidableEq

/-- What happens around a running `receiveRTCP`: another goroutine calls `Close()`, or the
blocking `sender.ReadRTCP()` returns `(pkts, err)`. -/
inductive Event where
  | close
  | read (pkts : List RTCPPacket) (err : Option Err)
deriving DecidableEq

/-- State of a running `receiveRTCP`: the sender, the log, and the number of `ReadRTCP`
calls that have returned. -/
structure RecvState where
  s : Sender
  log : List LogLine
  reads : Nat
deriving DecidableEq

/-- Outcome of a run of `receiveRTCP`: the state reached, whether the function has
returned, and whether it is stuck, blocked for ever in a channel send.  When it is neither,
it is blocked in `ReadRTCP`, waiting for the next batch. -/
structure RecvRun where
  final : RecvState
  returned : Bool
  stuck : Bool
deriving DecidableEq

/-- The type switch applied to one packet of a batch: the sender afterwards, or `none` when
the send of that case never completes. -/
def receiveRTCP.dispatch (s : Sender) (pkt : RTCPPacket) : Option Sender :=
  match pkt with
  | RTCPPacket.PictureLossIndication _ =>
    (s.rtcpCh.send pkt).map (fun c => { s with rtcpCh := c })
  | RTCPPacket.FullIntraRequest _ =>
    (s.rtcpCh.send pkt).map (fun c => { s with rtcpCh := c })
  | RTCPPacket.TransportLayerNack _ =>
    (s.rtcpCh.send pkt).map (fun c => { s with rtcpCh := c })
  | RTCPPacket.ReceiverEstimatedMaximumBitrate r =>
    if s.useRemb then (s.rembChan.send r).map (fun c => { s with rembChan := c }) else some s
  | RTCPPacket.other _ => some s

/-- Outcome of the loop over one batch: the sender reached, and whether the loop ran to its
end (when it did not, it is blocked for ever in a send). -/
structure RangeRun where
  s : Sender
  completed : Bool
deriving DecidableEq

/-- The loop `for _, pkt := range pkts`. -/
def receiveRTCP.rangePkts : Sender → List RTCPPacket → RangeRun
  | s, [] => { s := s, completed := true }
  | s, pkt :: rest =>
    match receiveRTCP.dispatch s pkt with
    | none => { s := s, completed := false }
    | some s' => receiveRTCP.rangePkts s' rest

/-- The method `Sender.receiveRTCP`, run against the events delivered to it.  When the
events are used up the loop is blocked in `ReadRTCP`. -/
def receiveRTCP : RecvState → List Event → RecvRun
  | st, [] => { final := st, returned := false, stuck := false }
  | st, Event.close :: rest => receiveRTCP { st with s := st.s.Close } rest
  | st, Event.read pkts err :: rest =>
    let st := { st with reads := st.reads + 1 }
    if err = some Err.EOF ∨ err = some Err.ErrClosedPipe then
      { final := st, returned := true, stuck := false }
    else
      let st :=
        match err with
        | some e => { st with log := st.log ++ [LogLine.rtcpErr e] }
        | none => st
      if st.s.stop then
        { final := st, returned := true, stuck := false }
      else
        let r := receiveRTCP.rangePkts st.s pkts
        if r.completed then
          receiveRTCP { st with s := r.s } rest
        else
          { final := { st with s := r.s }, returned := false, stuck := true }

/-! ## `rembLoop` -/

/-- The constant `math.MaxUint64`. -/
def MaxUint64 : Nat := 2 ^ 64 - 1

/-- The constant `time.Millisecond`, in nanoseconds. -/
def Millisecond : Int := 1000000

/-- The largest `time.Duration`. -/
def maxDuration : Int := 2 ^ 63 - 1

/-- The smallest `time.Duration`. -/
def minDuration : Int := -(2 ^ 63)

/-- The value of `time.Since(last)` when `time.Now()` reads `now`: the difference of the two monotonic
readings, saturated to the range of `time.Duration`. -/
def timeSince (now last : Int) : Int :=
  if now - last > maxDuration then maxDuration
  else if now - last < minDuration then minDuration
  else now - last

/-- One value received from `rembChan`, with the clock readings of the two `time.Now()`
calls of that iteration: the one inside `time.Since` and the one assigned to
`lastRembTime` (made only when the loop emits). -/
structure Arrival where
  pkt : ReceiverEstimatedMaximumBitrate
  sinceNow : Int
  resetNow : Int
deriving DecidableEq

/-- The local variables of `rembLoop` that live across iterations. -/
structure RembVars where
  lastRembTime : Int
  lowest : Nat
  rembCount : Nat
  rembTotalRate : Nat
deriving DecidableEq

/-- One iteration of `for pkt := range s.rembChan`: the variables afterwards and the packet
sent on `rtcpCh`, if any.  The result is `none` when the iteration stops with the run-time
error of an integer division by zero. -/
def rembLoop.iter (maxRembTime : Int) (rembMin rembMax : Nat) (v : RembVars) (a : Arrival) :
    Option (RembVars × Option ReceiverEstimatedMaximumBitrate) :=
  let rembCount := (v.rembCount + 1) % 2 ^ 64
  let rembTotalRate := (v.rembTotalRate + a.pkt.Bitrate) % 2 ^ 64
  let lowest := if a.pkt.Bitrate < v.lowest then a.pkt.Bitrate else v.lowest
  if timeSince a.sinceNow v.lastRembTime > maxRembTime then
    let lastRembTime := a.resetNow
    if rembCount = 0 then none
    else
      let _avg := rembTotalRate / rembCount
      let target := lowest
      let target :=
        if target < rembMin then rembMin
        else if target > rembMax then rembMax
        else target
      let newPkt : ReceiverEstimatedMaximumBitrate :=
        { Bitrate := target, SenderSSRC := 1, SSRCs := a.pkt.SSRCs }
      some ({ lastRembTime := lastRembTime, lowest := MaxUint64, rembCount := 0,
              rembTotalRate := 0 }, some newPkt)
  else
    some ({ lastRembTime := v.lastRembTime, lowest := lowest, rembCount := rembCount,
            rembTotalRate := rembTotalRate }, none)

/-- Result of running the loop: for each processed arrival the packet it made the loop send
on `rtcpCh` (if any), and the variables at the end (`none` after a run-time error). -/
structure RembRun where
  sent : List (Option ReceiverEstimatedMaximumBitrate)
  vars : Option RembVars
deriving DecidableEq

/-- The loop `for pkt := range s.rembChan`, from given variables. -/
def rembLoop.range (maxRembTime : Int) (rembMin rembMax : Nat) :
    RembVars → List Arrival → RembRun
  | v, [] => { sent := [], vars := some v }
  | v, a :: rest =>
    match rembLoop.iter maxRembTime rembMin rembMax v a with
    | none => { sent := [], vars := none }
    | some (v', out) =>
      let r := rembLoop.range maxRembTime rembMin rembMax v' rest
      { sent := out :: r.sent, vars := r.vars }

/-- The method `Sender.rembLoop`, started when `time.Now()` reads `start` and fed the given arrivals. -/
def rembLoop (start : Int) (arrivals : List Arrival) : RembRun :=
  let lastRembTime := start
  let maxRembTime := 200 * Millisecond
  let rembMin : Nat := 100000
  let rembMax : Nat := 5000000
  let rembMin := if rembMin = 0 then 10000 else rembMin
  let rembMax := if rembMax = 0 then 100000000 else rembMax
  let lowest := MaxUint64
  rembLoop.range maxRembTime rembMin rembMax
    { lastRembTime := lastRembTime, lowest := lowest, rembCount := 0, rembTotalRate := 0 }
    arrivals

/-- The packets the iterations of a run send on `rtcpCh`, oldest first. -/
def RembRun.emitted (r : RembRun) : List ReceiverEstimatedMaximumBitrate :=
  r.sent.filterMap id

/-! ## Vocabulary of the statements -/

/-- A packet is a picture-loss indication, a full-intra request or a transport-layer NACK. -/
def RTCPPacket.isLossOrRefresh : RTCPPacket → Bool
  | RTCPPacket.PictureLossIndication _ => true
  | RTCPPacket.FullIntraRequest _ => true
  | RTCPPacket.TransportLayerNack _ => true
  | _ => false

/-- The bandwidth estimate carried by a packet, when it is one. -/
def RTCPPacket.asREMB : RTCPPacket → Option Sfu.ReceiverEstimatedMaximumBitrate
  | RTCPPacket.ReceiverEstimatedMaximumBitrate r => some r
  | _ => none

/-- The smallest of a starting value and the rates of the given arrivals. -/
def lowestAfter (l : Nat) (xs : List Arrival) : Nat :=
  xs.foldl (fun m x => if x.pkt.Bitrate < m then x.pkt.Bitrate else m) l

/-- An event is a completed read. -/
def Event.isRead : Event → Bool
  | Event.read _ _ => true
  | Event.close => false

/-- A sender as `NewSender` returns it for a VP8-like track advertising `goog-remb`. -/
def exampleTrack : Track :=
  { codec := { PayloadType := 96,
               RTCPFeedback := [⟨"nack", "pli"⟩, ⟨TypeRTCPFBGoogREMB, ""⟩] },
    written := [] }

/-- A media packet with payload type 111. -/
def examplePacket : Packet :=
  { Header := { Version := 2, Padding := false, Extension := false, Marker := true,
                PayloadOffset := 12, PayloadType := 111, SequenceNumber := 4711,
                Timestamp := 90000, SSRC := 3735928559, CSRC := [],
                ExtensionProfile := 0, ExtensionPayload := [] },
    Raw := [], Payload := [1, 2, 3] }

/-- A report with the given rate and SSRCs (SenderSSRC 7) whose iteration reads the clock
`ms` milliseconds after time 0, both times. -/
def exampleArrival (rate : Nat) (ssrcs : List Nat) (ms : Int) : Arrival :=
  { pkt := { SenderSSRC := 7, Bitrate := rate, SSRCs := ssrcs },
    sinceNow := ms * Millisecond, resetNow := ms * Millisecond }

/-- The state in which the `receiveRTCP` goroutine of a new sender starts. -/
def startState (track : Track) : RecvState :=
  { s := (NewSender track).1, log := [], reads := 0 }

/-! ## `WriteRTP` -/

/-- C1: `WriteRTP(p)` hands the underlying track write exactly one packet, and that packet
agrees with `p` in every field except `Header.PayloadType`, which is the payload type
negotiated for the codec of the sender's track. -/
theorem WriteRTP_rewrites_only_payload_type (w : WriteOutcome) (s : Sender) (p : Packet) :
    ∃ q : Packet,
      (s.WriteRTP w p).1.track.written = s.track.written ++ [q] ∧
      q.Header.PayloadType = s.track.codec.PayloadType ∧
      q.Header.Version = p.Header.Version ∧
      q.Header.Padding = p.Header.Padding ∧
      q.Header.Extension = p.Header.Extension ∧
      q.Header.Marker = p.Header.Marker ∧
      q.Header.PayloadOffset = p.Header.PayloadOffset ∧
      q.Header.SequenceNumber = p.Header.SequenceNumber ∧
      q.Header.Timestamp = p.Header.Timestamp ∧
      q.Header.SSRC = p.Header.SSRC ∧
      q.Header.CSRC = p.Header.CSRC ∧
      q.Header.ExtensionProfile = p.Header.ExtensionProfile ∧
      q.Header.ExtensionPayload = p.Header.ExtensionPayload ∧
      q.Raw = p.Raw ∧
      q.Payload = p.Payload :=
  ⟨{ p with Header := { p.Header with PayloadType := s.track.codec.PayloadType } },
    rfl, rfl, rfl, rfl, rfl, rfl, rfl, rfl, rfl, rfl, rfl, rfl, rfl, rfl, rfl⟩

theorem writeAll_fst (w : WriteOutcome) (pkts : List Packet) :
    ∀ s : Sender,
      (writeAll w s pkts).1 =
        { s with track := { s.track with written := s.track.written ++ pkts.map (fun p =>
            { p with Header := { p.Header with PayloadType := s.track.codec.PayloadType } }) } } := by
  induction pkts with
  | nil => intro s; simp [writeAll]
  | cons p rest ih =>
    intro s
    simp [writeAll, ih, Sender.WriteRTP, Track.WriteRTP]

theorem writeAll_snd_length (w : WriteOutcome) (pkts : List Packet) :
    ∀ s : Sender, (writeAll w s pkts).2.length = pkts.length := by
  induction pkts with
  | nil => intro s; simp [writeAll]
  | cons p rest ih => intro s; simp [writeAll, ih]

theorem writeAll_snd_get (w : WriteOutcome) (pkts : List Packet) :
    ∀ (s : Sender) (i : Nat) (p : Packet), pkts[i]? = some p →
      (writeAll w s pkts).2[i]? =
        some (w (s.track.written ++ (pkts.take i).map (fun p =>
            { p with Header := { p.Header with PayloadType := s.track.codec.PayloadType } }))
          { p with Header := { p.Header with PayloadType := s.track.codec.PayloadType } }) := by
  induction pkts with
  | nil => intro s i p h; simp at h
  | cons p0 rest ih =>
    intro s i p h
    cases i with
    | zero =>
      simp at h
      subst h
      simp [writeAll, Sender.WriteRTP, Track.WriteRTP]
    | succ j =>
      simp at h
      have := ih (s.WriteRTP w p0).1 j p h
      simp [writeAll, this]
      simp [Sender.WriteRTP, Track.WriteRTP]

/-- C9: one `WriteRTP` call makes exactly one write on the track, returns the error of that
write as it is, and leaves the stop flag and the capability flag alone; hence a run of N
calls hands the track exactly N packets, in call order, whatever the writes report, and
call number i returns what write number i reported. -/
theorem WriteRTP_one_write_per_call (w : WriteOutcome) (s : Sender) :
    (∀ p : Packet, ∃ q : Packet,
      (s.WriteRTP w p).1.track.written = s.track.written ++ [q] ∧
      (s.WriteRTP w p).2 = w s.track.written q ∧
      (s.WriteRTP w p).1.stop = s.stop ∧
      (s.WriteRTP w p).1.useRemb = s.useRemb ∧
      (s.WriteRTP w p).1.rtcpCh = s.rtcpCh ∧
      (s.WriteRTP w p).1.rembChan = s.rembChan) ∧
    (∀ pkts : List Packet,
      (writeAll w s pkts).1.track.written =
        s.track.written ++ pkts.map (fun p =>
          { p with Header := { p.Header with PayloadType := s.track.codec.PayloadType } }) ∧
      (writeAll w s pkts).1.track.written.length = s.track.written.length + pkts.length ∧
      (writeAll w s pkts).2.length = pkts.length ∧
      (∀ (i : Nat) (p : Packet), pkts[i]? = some p →
        (writeAll w s pkts).2[i]? =
          some (w (s.track.written ++ (pkts.take i).map (fun p =>
              { p with Header := { p.Header with PayloadType := s.track.codec.PayloadType } }))
            { p with Header := { p.Header with PayloadType := s.track.codec.PayloadType } })) ∧
      (writeAll w s pkts).1.stop = s.stop ∧
      (writeAll w s pkts).1.useRemb = s.useRemb) := by
  refine ⟨fun p => ⟨_, rfl, rfl, rfl, rfl, rfl, rfl⟩, fun pkts => ?_⟩
  refine ⟨?_, ?_, writeAll_snd_length w pkts s, writeAll_snd_get w pkts s, ?_, ?_⟩
  · rw [writeAll_fst]
  · rw [writeAll_fst]; simp
  · rw [writeAll_fst]
  · rw [writeAll_fst]

/-! ## `NewSender` -/

/-- C10: for every track, the only goroutine `NewSender` starts is `receiveRTCP`;
`rembLoop` is not started, also when the codec advertises `goog-remb` and the new sender
therefore forwards bandwidth estimates to `rembChan`. -/
theorem NewSender_does_not_start_rembLoop (track : Track) :
    (NewSender track).2 = [Goroutine.receiveRTCP] ∧
    Goroutine.rembLoop ∉ (NewSender track).2 ∧
    (NewSender exampleTrack).1.useRemb = true ∧
    Goroutine.rembLoop ∉ (NewSender exampleTrack).2 := by
  refine ⟨rfl, ?_, ?_, ?_⟩
  · simp [NewSender]
  · decide
  · decide

/-! ## `receiveRTCP` -/

theorem feedbackCase_channels (fbs : List RTCPFeedback) :
    ∀ s : Sender,
      (fbs.foldl NewSender.feedbackCase s).rtcpCh = s.rtcpCh ∧
      (fbs.foldl NewSender.feedbackCase s).rembChan = s.rembChan := by
  induction fbs with
  | nil => intro s; exact ⟨rfl, rfl⟩
  | cons fb rest ih =>
    intro s
    obtain ⟨h1, h2⟩ := ih (NewSender.feedbackCase s fb)
    simp only [List.foldl_cons]
    rw [h1, h2]
    unfold NewSender.feedbackCase
    split_ifs <;> exact ⟨rfl, rfl⟩

theorem NewSender_channels_nil (track : Track) :
    (NewSender track).1.rtcpCh = Chan.nil ∧ (NewSender track).1.rembChan = Chan.nil := by
  have h := feedbackCase_channels track.codec.RTCPFeedback
    { track := track, stop := false, rtpCh := Chan.nil, rtcpCh := Chan.nil, useRemb := false,
      rembChan := Chan.nil }
  exact h

theorem dispatch_nil (s : Sender) (pkt : RTCPPacket) (h1 : s.rtcpCh = Chan.nil)
    (h2 : s.rembChan = Chan.nil) :
    receiveRTCP.dispatch s pkt = none ∨ receiveRTCP.dispatch s pkt = some s := by
  cases pkt <;> cases hu : s.useRemb <;> simp [receiveRTCP.dispatch, Chan.send, h1, h2, hu]

theorem rangePkts_nil (pkts : List RTCPPacket) :
    ∀ s : Sender, s.rtcpCh = Chan.nil → s.rembChan = Chan.nil →
      (receiveRTCP.rangePkts s pkts).s = s := by
  induction pkts with
  | nil => intro s _ _; rfl
  | cons p rest ih =>
    intro s h1 h2
    rcases dispatch_nil s p h1 h2 with h | h
    · simp [receiveRTCP.rangePkts, h]
    · simp only [receiveRTCP.rangePkts, h]
      exact ih s h1 h2

theorem receiveRTCP_nil_channels (evs : List Event) :
    ∀ st : RecvState, st.s.rtcpCh = Chan.nil → st.s.rembChan = Chan.nil →
      (receiveRTCP st evs).final.s.rtcpCh = Chan.nil ∧
      (receiveRTCP st evs).final.s.rembChan = Chan.nil := by
  induction evs with
  | nil => intro st h1 h2; exact ⟨h1, h2⟩
  | cons e rest ih =>
    intro st h1 h2
    cases e with
    | close =>
      simp only [receiveRTCP]
      exact ih _ h1 h2
    | read pkts err =>
      have hr : (receiveRTCP.rangePkts st.s pkts).s = st.s := rangePkts_nil pkts st.s h1 h2
      simp only [receiveRTCP]
      split
      · exact ⟨h1, h2⟩
      · split
        · cases err <;> exact ⟨h1, h2⟩
        · split
          · cases err <;> exact ih _ (by simpa [hr] using h1) (by simpa [hr] using h2)
          · cases err <;> exact ⟨by simpa [hr] using h1, by simpa [hr] using h2⟩

/-- C6: on the sender that `NewSender` returns, `rtcpCh` and `rembChan` are `nil`, so the
sends of `receiveRTCP` never complete: whatever the track and whatever the transport
delivers, no packet reaches `rtcpCh` or `rembChan`.  For the example track, the first batch
holds a NACK, a bandwidth estimate, an unrelated packet and a picture-loss indication: the
loop stays blocked in the send of the NACK, and neither the rest of the batch nor the next
batch is handled. -/
theorem receiveRTCP_forwards_nothing_after_NewSender (track : Track) (evs : List Event) :
    (NewSender track).1.rtcpCh = Chan.nil ∧
    (NewSender track).1.rembChan = Chan.nil ∧
    (receiveRTCP (startState track) evs).final.s.rtcpCh.sent = [] ∧
    (receiveRTCP (startState track) evs).final.s.rembChan.sent = [] ∧
    receiveRTCP (startState exampleTrack)
        [Event.read [RTCPPacket.TransportLayerNack ⟨1, 2, [(7, 0)]⟩,
                     RTCPPacket.ReceiverEstimatedMaximumBitrate ⟨1, 300000, [2]⟩,
                     RTCPPacket.other [200, 0],
                     RTCPPacket.PictureLossIndication ⟨1, 2⟩] none,
         Event.read [RTCPPacket.FullIntraRequest ⟨1, 2, []⟩] none] =
      { final := { s := (NewSender exampleTrack).1, log := [], reads := 1 },
        returned := false, stuck := true } := by
  obtain ⟨h1, h2⟩ := NewSender_channels_nil track
  obtain ⟨h3, h4⟩ := receiveRTCP_nil_channels evs (startState track) h1 h2
  refine ⟨h1, h2, ?_, ?_, ?_⟩
  · rw [h3]; rfl
  · rw [h4]; rfl
  · decide

/-- The classification itself, on a sender whose two channels are made and whose other
side takes at least as many values as the batch holds: the loop over the batch runs to its
end; `rtcpCh` has received exactly the picture-loss indications, full-intra requests and
NACKs of the batch, unmodified and in batch order; `rembChan` has received exactly the
bandwidth estimates of the batch, in batch order, when `useRemb` is set and nothing
otherwise. -/
theorem rangePkts_on_made_channels (pkts : List RTCPPacket) :
    ∀ (s : Sender) (n m : Nat) (xs : List RTCPPacket)
      (ys : List ReceiverEstimatedMaximumBitrate),
      s.rtcpCh = Chan.made n xs → s.rembChan = Chan.made m ys →
      pkts.length ≤ n → pkts.length ≤ m →
      (receiveRTCP.rangePkts s pkts).completed = true ∧
      (receiveRTCP.rangePkts s pkts).s.rtcpCh.sent =
        xs ++ pkts.filter RTCPPacket.isLossOrRefresh ∧
      (receiveRTCP.rangePkts s pkts).s.rembChan.sent =
        ys ++ (if s.useRemb then pkts.filterMap RTCPPacket.asREMB else []) ∧
      (receiveRTCP.rangePkts s pkts).s.useRemb = s.useRemb ∧
      (receiveRTCP.rangePkts s pkts).s.stop = s.stop ∧
      (receiveRTCP.rangePkts s pkts).s.track = s.track := by
  induction pkts with
  | nil =>
    intro s n m xs ys h1 h2 _ _
    simp [receiveRTCP.rangePkts, h1, h2, Chan.sent]
  | cons p rest ih =>
    intro s n m xs ys h1 h2 hn hm
    simp only [List.length_cons] at hn hm
    obtain ⟨n0, rfl⟩ : ∃ n0, n = n0 + 1 := ⟨n - 1, by omega⟩
    obtain ⟨m0, rfl⟩ : ∃ m0, m = m0 + 1 := ⟨m - 1, by omega⟩
    have hfwd : ∀ q : RTCPPacket, q.isLossOrRefresh = true → p = q →
        receiveRTCP.dispatch s p =
          some { s with rtcpCh := Chan.made n0 (xs ++ [p]) } := by
      intro q hq hpq
      subst hpq
      cases p <;> simp [RTCPPacket.isLossOrRefresh] at hq <;>
        simp [receiveRTCP.dispatch, Chan.send, h1]
    cases hp : p with
    | PictureLossIndication x =>
      have hd := hfwd p (by rw [hp]; rfl) rfl
      have := ih { s with rtcpCh := Chan.made n0 (xs ++ [p]) } n0 (m0 + 1) (xs ++ [p]) ys
        rfl h2 (by omega) (by omega)
      rw [hp] at hd this
      simpa [receiveRTCP.rangePkts, hd, RTCPPacket.isLossOrRefresh, RTCPPacket.asREMB]
        using this
    | FullIntraRequest x =>
      have hd := hfwd p (by rw [hp]; rfl) rfl
      have := ih { s with rtcpCh := Chan.made n0 (xs ++ [p]) } n0 (m0 + 1) (xs ++ [p]) ys
        rfl h2 (by omega) (by omega)
      rw [hp] at hd this
      simpa [receiveRTCP.rangePkts, hd, RTCPPacket.isLossOrRefresh, RTCPPacket.asREMB]
        using this
    | TransportLayerNack x =>
      have hd := hfwd p (by rw [hp]; rfl) rfl
      have := ih { s with rtcpCh := Chan.made n0 (xs ++ [p]) } n0 (m0 + 1) (xs ++ [p]) ys
        rfl h2 (by omega) (by omega)
      rw [hp] at hd this
      simpa [receiveRTCP.rangePkts, hd, RTCPPacket.isLossOrRefresh, RTCPPacket.asREMB]
        using this
    | ReceiverEstimatedMaximumBitrate r =>
      cases hu : s.useRemb with
      | true =>
        have hd : receiveRTCP.dispatch s (RTCPPacket.ReceiverEstimatedMaximumBitrate r) =
            some { s with rembChan := Chan.made m0 (ys ++ [r]) } := by
          simp [receiveRTCP.dispatch, Chan.send, h2, hu]
        have := ih { s with rembChan := Chan.made m0 (ys ++ [r]) } (n0 + 1) m0 xs (ys ++ [r])
          h1 rfl (by omega) (by omega)
        simpa [receiveRTCP.rangePkts, hd, RTCPPacket.isLossOrRefresh, RTCPPacket.asREMB, hu]
          using this
      | false =>
        have hd : receiveRTCP.dispatch s (RTCPPacket.ReceiverEstimatedMaximumBitrate r) =
            some s := by
          simp [receiveRTCP.dispatch, hu]
        have := ih s (n0 + 1) (m0 + 1) xs ys h1 h2 (by omega) (by omega)
        simpa [receiveRTCP.rangePkts, hd, RTCPPacket.isLossOrRefresh, RTCPPacket.asREMB, hu]
          using this
    | other raw =>
      have hd : receiveRTCP.dispatch s (RTCPPacket.other raw) = some s := by
        simp [receiveRTCP.dispatch]
      have := ih s (n0 + 1) (m0 + 1) xs ys h1 h2 (by omega) (by omega)
      simpa [receiveRTCP.rangePkts, hd, RTCPPacket.isLossOrRefresh, RTCPPacket.asREMB]
        using this

theorem receiveRTCP_reads_le (evs : List Event) :
    ∀ st : RecvState, st.reads ≤ (receiveRTCP st evs).final.reads := by
  induction evs with
  | nil => intro st; simp [receiveRTCP]
  | cons e rest ih =>
    intro st
    cases e with
    | close => simpa [receiveRTCP] using ih { st with s := st.s.Close }
    | read pkts err =>
      simp only [receiveRTCP]
      split
      · simp
      · split
        · cases err <;> simp
        · split
          · refine le_trans ?_ (ih _)
            cases err <;> simp
          · cases err <;> simp

theorem receiveRTCP_reads_lt (evs : List Event) :
    ∀ st : RecvState, (∃ e ∈ evs, e.isRead = true) →
      st.reads < (receiveRTCP st evs).final.reads := by
  induction evs with
  | nil => intro st h; simp at h
  | cons e rest ih =>
    intro st h
    cases e with
    | close =>
      obtain ⟨e, he, hr⟩ := h
      simp at he
      rcases he with rfl | he
      · simp [Event.isRead] at hr
      · simpa [receiveRTCP] using ih { st with s := st.s.Close } ⟨e, he, hr⟩
    | read pkts err =>
      simp only [receiveRTCP]
      split
      · simp
      · split
        · cases err <;> simp
        · split
          · refine lt_of_lt_of_le ?_ (receiveRTCP_reads_le rest _)
            cases err <;> simp
          · cases err <;> simp

/-- C7, as stated, fails: `Close()` is called, then a read reports an error that is not the
closed-transport condition; the loop logs it and returns, and the batch that the transport
has ready next is never read. -/
theorem receiveRTCP_transient_error_after_close_returns :
    (receiveRTCP (startState exampleTrack)
        [Event.close, Event.read [] (some (Err.other "read timeout")),
         Event.read [RTCPPacket.PictureLossIndication ⟨1, 2⟩] none]) =
      { final := { s := (NewSender exampleTrack).1.Close,
                   log := [LogLine.rtcpErr (Err.other "read timeout")], reads := 1 },
        returned := true, stuck := false } := by
  decide

/-- C7, amended: when a read reports an error other than the closed-transport condition
and the stop flag is not set, the loop does not return and it logs the error.  With the
empty batch that `ReadRTCP` returns together with an error, the loop goes on with the
remaining events from there, and when a further read completes, the loop performs it.  The
same holds for any batch delivered with the error once the sends of its dispatch have
completed; while one of them never completes, the loop stays blocked in it and does not
return either. -/
theorem receiveRTCP_transient_error_continues (st : RecvState) (pkts : List RTCPPacket)
    (msg : String) (rest : List Event) (hstop : st.s.stop = false) :
    (receiveRTCP st (Event.read [] (some (Err.other msg)) :: rest) =
        receiveRTCP { s := st.s, log := st.log ++ [LogLine.rtcpErr (Err.other msg)],
                      reads := st.reads + 1 } rest ∧
      ((∃ e ∈ rest, e.isRead = true) →
        st.reads + 2 ≤
          (receiveRTCP st (Event.read [] (some (Err.other msg)) :: rest)).final.reads)) ∧
    (receiveRTCP st [Event.read pkts (some (Err.other msg))]).returned = false ∧
    (receiveRTCP st [Event.read pkts (some (Err.other msg))]).final.log =
      st.log ++ [LogLine.rtcpErr (Err.other msg)] ∧
    ((receiveRTCP.rangePkts st.s pkts).completed = true →
      receiveRTCP st (Event.read pkts (some (Err.other msg)) :: rest) =
        receiveRTCP { s := (receiveRTCP.rangePkts st.s pkts).s,
                      log := st.log ++ [LogLine.rtcpErr (Err.other msg)],
                      reads := st.reads + 1 } rest ∧
      ((∃ e ∈ rest, e.isRead = true) →
        st.reads + 2 ≤
          (receiveRTCP st (Event.read pkts (some (Err.other msg)) :: rest)).final.reads)) ∧
    ((receiveRTCP.rangePkts st.s pkts).completed = false →
      (receiveRTCP st (Event.read pkts (some (Err.other msg)) :: rest)).returned = false ∧
      (receiveRTCP st (Event.read pkts (some (Err.other msg)) :: rest)).stuck = true) := by
  have hgen : ∀ ps : List RTCPPacket, (receiveRTCP.rangePkts st.s ps).completed = true →
      receiveRTCP st (Event.read ps (some (Err.other msg)) :: rest) =
        receiveRTCP { s := (receiveRTCP.rangePkts st.s ps).s,
                      log := st.log ++ [LogLine.rtcpErr (Err.other msg)],
                      reads := st.reads + 1 } rest ∧
      ((∃ e ∈ rest, e.isRead = true) →
        st.reads + 2 ≤
          (receiveRTCP st (Event.read ps (some (Err.other msg)) :: rest)).final.reads) := by
    intro ps hc
    have h1 : receiveRTCP st (Event.read ps (some (Err.other msg)) :: rest) =
        receiveRTCP { s := (receiveRTCP.rangePkts st.s ps).s,
                      log := st.log ++ [LogLine.rtcpErr (Err.other msg)],
                      reads := st.reads + 1 } rest := by
      simp [receiveRTCP, hstop, hc]
    refine ⟨h1, ?_⟩
    intro h
    rw [h1]
    have := receiveRTCP_reads_lt rest
      { s := (receiveRTCP.rangePkts st.s ps).s,
        log := st.log ++ [LogLine.rtcpErr (Err.other msg)],
        reads := st.reads + 1 } h
    simp at this
    omega
  refine ⟨hgen [] rfl, ?_, ?_, hgen pkts, ?_⟩
  · cases hc : (receiveRTCP.rangePkts st.s pkts).completed <;>
      simp [receiveRTCP, hstop, hc]
  · cases hc : (receiveRTCP.rangePkts st.s pkts).completed <;>
      simp [receiveRTCP, hstop, hc]
  · intro hc
    simp [receiveRTCP, hstop, hc]

/-- Witness for the amended C7: a new sender whose first read fails with a transient error
and whose second read delivers a picture-loss indication. -/
theorem receiveRTCP_transient_error_continues_witness :
    (receiveRTCP (startState exampleTrack)
        [Event.read [] (some (Err.other "read timeout"))]).returned = false ∧
    (0 : Nat) + 2 ≤ (receiveRTCP (startState exampleTrack)
        (Event.read [] (some (Err.other "read timeout")) ::
          [Event.read [RTCPPacket.PictureLossIndication ⟨1, 2⟩] none])).final.reads :=
  ⟨(receiveRTCP_transient_error_continues (startState exampleTrack) [] "read timeout"
      [Event.read [RTCPPacket.PictureLossIndication ⟨1, 2⟩] none] (by decide)).2.1,
   (receiveRTCP_transient_error_continues (startState exampleTrack) [] "read timeout"
      [Event.read [RTCPPacket.PictureLossIndication ⟨1, 2⟩] none] (by decide)).1.2
      ⟨_, List.mem_singleton.2 rfl, rfl⟩⟩

/-- C8: a read that reports `io.EOF` or `io.ErrClosedPipe`, or that completes while the
stop flag is set, makes `receiveRTCP` return: nothing of the batch just read and nothing
that the transport delivers later reaches `rtcpCh` or `rembChan`, and no further read is
made.  The stop flag is the one `Close()` sets: a read completing after `Close()` ends the
loop in the same way. -/
theorem receiveRTCP_terminal_read_ends_loop (st : RecvState) (pkts : List RTCPPacket)
    (err : Option Err) (rest : List Event)
    (h : err = some Err.EOF ∨ err = some Err.ErrClosedPipe ∨ st.s.stop = true) :
    (receiveRTCP st (Event.read pkts err :: rest)).returned = true ∧
    (receiveRTCP st (Event.read pkts err :: rest)).final.s = st.s ∧
    (receiveRTCP st (Event.read pkts err :: rest)).final.s.rtcpCh = st.s.rtcpCh ∧
    (receiveRTCP st (Event.read pkts err :: rest)).final.s.rembChan = st.s.rembChan ∧
    (receiveRTCP st (Event.read pkts err :: rest)).final.reads = st.reads + 1 ∧
    receiveRTCP st (Event.read pkts err :: rest) = receiveRTCP st [Event.read pkts err] ∧
    (receiveRTCP st (Event.close :: Event.read pkts err :: rest)).returned = true ∧
    (receiveRTCP st (Event.close :: Event.read pkts err :: rest)).final.s = st.s.Close ∧
    (receiveRTCP st (Event.close :: Event.read pkts err :: rest)).final.reads = st.reads + 1 := by
  have hc : ∀ (st : RecvState) (rest : List Event),
      (err = some Err.EOF ∨ err = some Err.ErrClosedPipe ∨ st.s.stop = true) →
      (receiveRTCP st (Event.read pkts err :: rest)).returned = true ∧
      (receiveRTCP st (Event.read pkts err :: rest)).final.s = st.s ∧
      (receiveRTCP st (Event.read pkts err :: rest)).final.reads = st.reads + 1 ∧
      receiveRTCP st (Event.read pkts err :: rest) = receiveRTCP st [Event.read pkts err] := by
    intro st2 rest2 h2
    rcases h2 with h3 | h3 | h3
    · simp [receiveRTCP, h3]
    · simp [receiveRTCP, h3]
    · by_cases hE : err = some Err.EOF ∨ err = some Err.ErrClosedPipe
      · simp [receiveRTCP, hE]
      · cases err with
        | none => simp [receiveRTCP, h3]
        | some e =>
          have hE2 : ¬(e = Err.EOF ∨ e = Err.ErrClosedPipe) := by simpa using hE
          simp [receiveRTCP, h3, hE2]
  obtain ⟨a1, a2, a3, a4⟩ := hc st rest h
  obtain ⟨b1, b2, b3, _⟩ := hc { st with s := st.s.Close } rest (Or.inr (Or.inr rfl))
  refine ⟨a1, a2, by rw [a2], by rw [a2], a3, a4, ?_, ?_, ?_⟩
  · simpa [receiveRTCP] using b1
  · simpa [receiveRTCP] using b2
  · simpa [receiveRTCP] using b3

/-- Witness for C8: after `Close()` a read completes with a batch and another batch is
ready behind it; the loop returns after one read and forwards nothing. -/
theorem receiveRTCP_terminal_read_ends_loop_witness :
    (receiveRTCP { (startState exampleTrack) with s := (startState exampleTrack).s.Close }
        (Event.read [RTCPPacket.PictureLossIndication ⟨1, 2⟩] none ::
          [Event.read [RTCPPacket.FullIntraRequest ⟨1, 2, []⟩] none])).returned = true ∧
    (receiveRTCP { (startState exampleTrack) with s := (startState exampleTrack).s.Close }
        (Event.read [RTCPPacket.PictureLossIndication ⟨1, 2⟩] none ::
          [Event.read [RTCPPacket.FullIntraRequest ⟨1, 2, []⟩] none])).final.s.rtcpCh =
      Chan.nil :=
  have h := receiveRTCP_terminal_read_ends_loop
    { (startState exampleTrack) with s := (startState exampleTrack).s.Close }
    [RTCPPacket.PictureLossIndication ⟨1, 2⟩] none
    [Event.read [RTCPPacket.FullIntraRequest ⟨1, 2, []⟩] none] (Or.inr (Or.inr rfl))
  ⟨h.1, h.2.2.1⟩

/-! ## `rembLoop` -/

theorem timeSince_gt_iff (now last : Int) :
    timeSince now last > 200 * Millisecond ↔ now - last > 200 * Millisecond := by
  unfold timeSince maxDuration minDuration Millisecond
  norm_num
  split_ifs <;> omega

theorem rembLoop_eq (start : Int) (arrivals : List Arrival) :
    rembLoop start arrivals =
      rembLoop.range (200 * Millisecond) 100000 5000000
        { lastRembTime := start, lowest := MaxUint64, rembCount := 0, rembTotalRate := 0 }
        arrivals := by
  simp [rembLoop]

theorem iter_quiet (v : RembVars) (a : Arrival)
    (h : a.sinceNow - v.lastRembTime ≤ 200 * Millisecond) :
    rembLoop.iter (200 * Millisecond) 100000 5000000 v a =
      some ({ lastRembTime := v.lastRembTime,
              lowest := if a.pkt.Bitrate < v.lowest then a.pkt.Bitrate else v.lowest,
              rembCount := (v.rembCount + 1) % 2 ^ 64,
              rembTotalRate := (v.rembTotalRate + a.pkt.Bitrate) % 2 ^ 64 }, none) := by
  have hn : ¬ timeSince a.sinceNow v.lastRembTime > 200 * Millisecond := by
    rw [timeSince_gt_iff]; omega
  simp only [rembLoop.iter, if_neg hn]

theorem iter_emit (v : RembVars) (a : Arrival)
    (h : a.sinceNow - v.lastRembTime > 200 * Millisecond)
    (hc : (v.rembCount + 1) % 2 ^ 64 ≠ 0) :
    rembLoop.iter (200 * Millisecond) 100000 5000000 v a =
      some ({ lastRembTime := a.resetNow, lowest := MaxUint64, rembCount := 0,
              rembTotalRate := 0 },
            some { SenderSSRC := 1,
                   Bitrate :=
                     if (if a.pkt.Bitrate < v.lowest then a.pkt.Bitrate else v.lowest) < 100000
                     then 100000
                     else if (if a.pkt.Bitrate < v.lowest then a.pkt.Bitrate else v.lowest) >
                        5000000 then 5000000
                     else (if a.pkt.Bitrate < v.lowest then a.pkt.Bitrate else v.lowest),
                   SSRCs := a.pkt.SSRCs }) := by
  have hp : timeSince a.sinceNow v.lastRembTime > 200 * Millisecond := by
    rw [timeSince_gt_iff]; exact h
  simp only [rembLoop.iter, if_pos hp, if_neg hc]

theorem iter_fault (v : RembVars) (a : Arrival)
    (h : a.sinceNow - v.lastRembTime > 200 * Millisecond)
    (hc : (v.rembCount + 1) % 2 ^ 64 = 0) :
    rembLoop.iter (200 * Millisecond) 100000 5000000 v a = none := by
  have hp : timeSince a.sinceNow v.lastRembTime > 200 * Millisecond := by
    rw [timeSince_gt_iff]; exact h
  simp only [rembLoop.iter, if_pos hp, if_pos hc]

theorem range_cons_some (v v' : RembVars) (a : Arrival) (rest : List Arrival)
    (out : Option ReceiverEstimatedMaximumBitrate)
    (h : rembLoop.iter (200 * Millisecond) 100000 5000000 v a = some (v', out)) :
    rembLoop.range (200 * Millisecond) 100000 5000000 v (a :: rest) =
      { sent := out :: (rembLoop.range (200 * Millisecond) 100000 5000000 v' rest).sent,
        vars := (rembLoop.range (200 * Millisecond) 100000 5000000 v' rest).vars } := by
  simp [rembLoop.range, h]

theorem range_cons_none (v : RembVars) (a : Arrival) (rest : List Arrival)
    (h : rembLoop.iter (200 * Millisecond) 100000 5000000 v a = none) :
    rembLoop.range (200 * Millisecond) 100000 5000000 v (a :: rest) =
      { sent := [], vars := none } := by
  simp [rembLoop.range, h]

/-- C3, as stated, fails: three reports with rates 80000, 50000 and 200000 reach a loop
started at time 0 after 10, 20 and 30 ms, all inside the first 200 ms window; the loop emits
nothing. -/
theorem rembLoop_three_reports_inside_window_emit_nothing :
    (rembLoop 0
      [⟨⟨7, 80000, [11]⟩, 10 * Millisecond, 10 * Millisecond⟩,
       ⟨⟨7, 50000, [12]⟩, 20 * Millisecond, 20 * Millisecond⟩,
       ⟨⟨7, 200000, [13]⟩, 30 * Millisecond, 30 * Millisecond⟩]).emitted = [] ∧
    (rembLoop 0
      [⟨⟨7, 80000, [11]⟩, 10 * Millisecond, 10 * Millisecond⟩,
       ⟨⟨7, 50000, [12]⟩, 20 * Millisecond, 20 * Millisecond⟩,
       ⟨⟨7, 200000, [13]⟩, 30 * Millisecond, 30 * Millisecond⟩]).emitted.length ≠ 1 := by
  decide

/-- C3, amended: three reports with rates 80000, 50000 and 200000, in that order, reach a
freshly started loop, the first two no later than 200 ms after the start and the third more
than 200 ms after it: exactly one estimate is emitted, by the third report, with Bitrate
100000 and the SSRCs of the third report.  When the third report too arrives no later than
200 ms after the start, nothing is emitted. -/
theorem rembLoop_three_reports_third_after_window (start : Int)
    (s1 s2 s3 : Nat) (ss1 ss2 ss3 : List Nat) (t1 t2 t3 u1 u2 u3 : Int)
    (h1 : t1 - start ≤ 200 * Millisecond) (h2 : t2 - start ≤ 200 * Millisecond) :
    (t3 - start > 200 * Millisecond →
      (rembLoop start [⟨⟨s1, 80000, ss1⟩, t1, u1⟩, ⟨⟨s2, 50000, ss2⟩, t2, u2⟩,
          ⟨⟨s3, 200000, ss3⟩, t3, u3⟩]).sent = [none, none, some ⟨1, 100000, ss3⟩] ∧
      (rembLoop start [⟨⟨s1, 80000, ss1⟩, t1, u1⟩, ⟨⟨s2, 50000, ss2⟩, t2, u2⟩,
          ⟨⟨s3, 200000, ss3⟩, t3, u3⟩]).emitted = [⟨1, 100000, ss3⟩]) ∧
    (t3 - start ≤ 200 * Millisecond →
      (rembLoop start [⟨⟨s1, 80000, ss1⟩, t1, u1⟩, ⟨⟨s2, 50000, ss2⟩, t2, u2⟩,
          ⟨⟨s3, 200000, ss3⟩, t3, u3⟩]).emitted = []) := by
  have e1 := iter_quiet ⟨start, MaxUint64, 0, 0⟩ ⟨⟨s1, 80000, ss1⟩, t1, u1⟩ h1
  have e2 := iter_quiet ⟨start, 80000, 1, 80000⟩ ⟨⟨s2, 50000, ss2⟩, t2, u2⟩ h2
  have n1 : (if (80000 : Nat) < MaxUint64 then 80000 else MaxUint64) = 80000 := by decide
  simp only [n1] at e1
  norm_num at e1 e2
  constructor
  · intro h3
    have e3 := iter_emit ⟨start, 50000, 2, 130000⟩ ⟨⟨s3, 200000, ss3⟩, t3, u3⟩ h3 (by norm_num)
    norm_num at e3
    rw [rembLoop_eq, range_cons_some _ _ _ _ _ e1, range_cons_some _ _ _ _ _ e2,
      range_cons_some _ _ _ _ _ e3]
    simp [rembLoop.range, RembRun.emitted]
  · intro h3
    have e3 := iter_quiet ⟨start, 50000, 2, 130000⟩ ⟨⟨s3, 200000, ss3⟩, t3, u3⟩ h3
    rw [rembLoop_eq, range_cons_some _ _ _ _ _ e1, range_cons_some _ _ _ _ _ e2,
      range_cons_some _ _ _ _ _ e3]
    simp [rembLoop.range, RembRun.emitted]

/-- Witness for the amended C3: loop started at 0, reports after 10, 20 and 230 ms. -/
theorem rembLoop_three_reports_third_after_window_witness :
    (rembLoop 0 [⟨⟨7, 80000, [11]⟩, 10 * Millisecond, 10 * Millisecond⟩,
        ⟨⟨7, 50000, [12]⟩, 20 * Millisecond, 20 * Millisecond⟩,
        ⟨⟨7, 200000, [13]⟩, 230 * Millisecond, 230 * Millisecond⟩]).emitted =
      [⟨1, 100000, [13]⟩] :=
  ((rembLoop_three_reports_third_after_window 0 7 7 7 [11] [12] [13]
      (10 * Millisecond) (20 * Millisecond) (230 * Millisecond)
      (10 * Millisecond) (20 * Millisecond) (230 * Millisecond)
      (by decide) (by decide)).1 (by decide)).2

theorem iter_some_none (v v' : RembVars) (a : Arrival)
    (h : rembLoop.iter (200 * Millisecond) 100000 5000000 v a = some (v', none)) :
    a.sinceNow - v.lastRembTime ≤ 200 * Millisecond ∧
    v' = { lastRembTime := v.lastRembTime,
           lowest := if a.pkt.Bitrate < v.lowest then a.pkt.Bitrate else v.lowest,
           rembCount := (v.rembCount + 1) % 2 ^ 64,
           rembTotalRate := (v.rembTotalRate + a.pkt.Bitrate) % 2 ^ 64 } := by
  by_cases ht : a.sinceNow - v.lastRembTime > 200 * Millisecond
  · by_cases hc : (v.rembCount + 1) % 2 ^ 64 = 0
    · rw [iter_fault v a ht hc] at h; simp at h
    · rw [iter_emit v a ht hc] at h; simp at h
  · have hq : a.sinceNow - v.lastRembTime ≤ 200 * Millisecond := by omega
    rw [iter_quiet v a hq] at h
    simp at h
    exact ⟨hq, h.symm⟩

theorem iter_some_some (v v' : RembVars) (a : Arrival) (e : ReceiverEstimatedMaximumBitrate)
    (h : rembLoop.iter (200 * Millisecond) 100000 5000000 v a = some (v', some e)) :
    a.sinceNow - v.lastRembTime > 200 * Millisecond ∧
    v' = { lastRembTime := a.resetNow, lowest := MaxUint64, rembCount := 0,
           rembTotalRate := 0 } ∧
    e = { SenderSSRC := 1,
          Bitrate :=
            if lowestAfter v.lowest [a] < 100000 then 100000
            else if lowestAfter v.lowest [a] > 5000000 then 5000000
            else lowestAfter v.lowest [a],
          SSRCs := a.pkt.SSRCs } := by
  by_cases ht : a.sinceNow - v.lastRembTime > 200 * Millisecond
  · by_cases hc : (v.rembCount + 1) % 2 ^ 64 = 0
    · rw [iter_fault v a ht hc] at h; simp at h
    · rw [iter_emit v a ht hc] at h
      simp at h
      exact ⟨ht, h.1.symm, by rw [← h.2]; simp [lowestAfter]⟩
  · have hq : a.sinceNow - v.lastRembTime ≤ 200 * Millisecond := by omega
    rw [iter_quiet v a hq] at h
    simp at h

theorem lowestAfter_cons (l : Nat) (x : Arrival) (xs : List Arrival) :
    lowestAfter l (x :: xs) =
      lowestAfter (if x.pkt.Bitrate < l then x.pkt.Bitrate else l) xs := by
  simp [lowestAfter]

theorem lowestAfter_le (xs : List Arrival) :
    ∀ l : Nat, lowestAfter l xs ≤ l ∧ ∀ x ∈ xs, lowestAfter l xs ≤ x.pkt.Bitrate := by
  induction xs with
  | nil => intro l; simp [lowestAfter]
  | cons y ys ih =>
    intro l
    rw [lowestAfter_cons]
    obtain ⟨h1, h2⟩ := ih (if y.pkt.Bitrate < l then y.pkt.Bitrate else l)
    by_cases hlt : y.pkt.Bitrate < l
    · simp only [if_pos hlt] at h1 h2 ⊢
      refine ⟨by omega, ?_⟩
      intro x hx
      simp at hx
      rcases hx with rfl | hx
      · exact h1
      · exact h2 x hx
    · simp only [if_neg hlt] at h1 h2 ⊢
      refine ⟨h1, ?_⟩
      intro x hx
      simp at hx
      rcases hx with rfl | hx
      · omega
      · exact h2 x hx

theorem lowestAfter_mem (xs : List Arrival) :
    ∀ l : Nat, lowestAfter l xs = l ∨ ∃ x ∈ xs, lowestAfter l xs = x.pkt.Bitrate := by
  induction xs with
  | nil => intro l; simp [lowestAfter]
  | cons y ys ih =>
    intro l
    rw [lowestAfter_cons]
    rcases ih (if y.pkt.Bitrate < l then y.pkt.Bitrate else l) with h | ⟨x, hx, h⟩
    · split_ifs at h with hlt
      · exact Or.inr ⟨y, by simp, by rw [if_pos hlt]; exact h⟩
      · exact Or.inl (by rw [if_neg hlt]; exact h)
    · exact Or.inr ⟨x, by simp [hx], h⟩

/-- A stretch of arrivals that emit nothing, followed by one that emits: the emitted packet
carries the clamped smallest rate of the stretch and of the emitting arrival. -/
theorem window_emit (win : List Arrival) :
    ∀ (v : RembVars) (a : Arrival) (post : List Arrival)
      (e : ReceiverEstimatedMaximumBitrate),
      (∀ k, k < win.length →
        (rembLoop.range (200 * Millisecond) 100000 5000000 v (win ++ a :: post)).sent[k]? =
          some none) →
      (rembLoop.range (200 * Millisecond) 100000 5000000 v
          (win ++ a :: post)).sent[win.length]? = some (some e) →
      e = { SenderSSRC := 1,
            Bitrate :=
              if lowestAfter v.lowest (win ++ [a]) < 100000 then 100000
              else if lowestAfter v.lowest (win ++ [a]) > 5000000 then 5000000
              else lowestAfter v.lowest (win ++ [a]),
            SSRCs := a.pkt.SSRCs } := by
  induction win with
  | nil =>
    intro v a post e _ he
    cases hi : rembLoop.iter (200 * Millisecond) 100000 5000000 v a with
    | none =>
      rw [List.nil_append, range_cons_none v a post hi] at he
      simp at he
    | some r =>
      obtain ⟨v', out⟩ := r
      rw [List.nil_append, range_cons_some v v' a post out hi] at he
      simp at he
      subst he
      exact (iter_some_some v v' a e hi).2.2
  | cons x win' ih =>
    intro v a post e hq he
    cases hi : rembLoop.iter (200 * Millisecond) 100000 5000000 v x with
    | none =>
      rw [List.cons_append, range_cons_none v x _ hi] at he
      simp at he
    | some r =>
      obtain ⟨v', out⟩ := r
      rw [List.cons_append, range_cons_some v v' x _ out hi] at he hq
      have h0 := hq 0 (by simp)
      simp at h0
      subst h0
      have hv' := (iter_some_none v v' x hi).2
      have hq' : ∀ k, k < win'.length →
          (rembLoop.range (200 * Millisecond) 100000 5000000 v'
            (win' ++ a :: post)).sent[k]? = some none := by
        intro k hk
        have := hq (k + 1) (by simp; omega)
        simpa using this
      have he' : (rembLoop.range (200 * Millisecond) 100000 5000000 v'
            (win' ++ a :: post)).sent[win'.length]? = some (some e) := by
        simpa using he
      have := ih v' a post e hq' he'
      rw [this, List.cons_append, lowestAfter_cons, hv']

/-- When a run gets past a first part of its input, the rest of the run is a run from the
variables reached after that part; these are the reset ones when the last arrival of the
first part emitted. -/
theorem leading_part_reset (pre : List Arrival) :
    ∀ (v : RembVars) (rest : List Arrival) (n : Nat)
      (out : Option ReceiverEstimatedMaximumBitrate),
      (rembLoop.range (200 * Millisecond) 100000 5000000 v (pre ++ rest)).sent[pre.length + n]? =
        some out →
      ∃ v1 : RembVars,
        (∀ k, (rembLoop.range (200 * Millisecond) 100000 5000000 v
            (pre ++ rest)).sent[pre.length + k]? =
          (rembLoop.range (200 * Millisecond) 100000 5000000 v1 rest).sent[k]?) ∧
        (pre = [] → v1 = v) ∧
        (∀ e0, (rembLoop.range (200 * Millisecond) 100000 5000000 v
            (pre ++ rest)).sent[pre.length - 1]? = some (some e0) → pre ≠ [] →
          v1.lowest = MaxUint64) := by
  induction pre with
  | nil =>
    intro v rest n out _
    exact ⟨v, by simp, fun _ => rfl, fun e0 _ h => absurd rfl h⟩
  | cons x pre' ih =>
    intro v rest n out hn
    cases hi : rembLoop.iter (200 * Millisecond) 100000 5000000 v x with
    | none =>
      rw [List.cons_append, range_cons_none v x _ hi] at hn
      simp at hn
    | some r =>
      obtain ⟨v', o⟩ := r
      rw [List.cons_append, range_cons_some v v' x _ o hi] at hn ⊢
      have hs : ∀ k, (x :: pre').length + k = (pre'.length + k) + 1 := by
        intro k; simp; omega
      rw [hs] at hn
      simp only [List.getElem?_cons_succ] at hn
      obtain ⟨v1, h1, h2, h3⟩ := ih v' rest n out hn
      refine ⟨v1, ?_, ?_, ?_⟩
      · intro k
        rw [hs]
        simp only [List.getElem?_cons_succ]
        exact h1 k
      · intro h; simp at h
      · intro e0 he0 _
        by_cases hp : pre' = []
        · subst hp
          simp at he0
          subst he0
          rw [h2 rfl]
          rw [(iter_some_some v v' x e0 hi).2.1]
        · have hl : 0 < pre'.length := List.length_pos.2 hp
          have hidx : (x :: pre').length - 1 = (pre'.length - 1) + 1 := by
            simp; omega
          rw [hidx] at he0
          simp only [List.getElem?_cons_succ] at he0
          exact h3 e0 he0 hp

/-- C2: whenever `rembLoop` emits an estimate, its Bitrate is the smallest Bitrate among
the reports received since the previous emission (since the start of the loop when there
was none), the report that triggers the emission included, clamped into
[100000, 5000000], its SSRCs are those of the triggering report, and its SenderSSRC is 1.
The input is split as `pre`, ending with the previous emission or empty, then `win`, the
reports that emitted nothing, then the triggering report `a`. -/
theorem rembLoop_emits_clamped_minimum (start : Int) (pre win : List Arrival) (a : Arrival)
    (post : List Arrival) (e : ReceiverEstimatedMaximumBitrate)
    (huint : ∀ x ∈ win ++ [a], x.pkt.Bitrate ≤ MaxUint64)
    (hprev : pre = [] ∨ ∃ e0,
      (rembLoop start (pre ++ (win ++ a :: post))).sent[pre.length - 1]? = some (some e0))
    (hquiet : ∀ k, k < win.length →
      (rembLoop start (pre ++ (win ++ a :: post))).sent[pre.length + k]? = some none)
    (hemit :
      (rembLoop start (pre ++ (win ++ a :: post))).sent[pre.length + win.length]? =
        some (some e)) :
    ∃ m : Nat,
      m ∈ (win ++ [a]).map (fun x => x.pkt.Bitrate) ∧
      (∀ b ∈ (win ++ [a]).map (fun x => x.pkt.Bitrate), m ≤ b) ∧
      e.Bitrate = (if m < 100000 then 100000 else if m > 5000000 then 5000000 else m) ∧
      e.SSRCs = a.pkt.SSRCs ∧
      e.SenderSSRC = 1 := by
  rw [rembLoop_eq] at hprev hquiet hemit
  obtain ⟨v1, h1, h2, h3⟩ := leading_part_reset pre _ _ _ _ hemit
  have hlow : v1.lowest = MaxUint64 := by
    rcases hprev with hp | ⟨e0, he0⟩
    · rw [h2 hp]
    · by_cases hp : pre = []
      · rw [h2 hp]
      · exact h3 e0 he0 hp
  have he := window_emit win v1 a post e
    (fun k hk => by rw [← h1 k]; exact hquiet k hk)
    (by rw [← h1 win.length]; exact hemit)
  refine ⟨lowestAfter MaxUint64 (win ++ [a]), ?_, ?_, ?_, ?_, ?_⟩
  · rcases lowestAfter_mem (win ++ [a]) MaxUint64 with h | ⟨x, hx, h⟩
    · have ha := (lowestAfter_le (win ++ [a]) MaxUint64).2 a (by simp)
      have hb := huint a (by simp)
      exact List.mem_map.2 ⟨a, by simp, by omega⟩
    · exact List.mem_map.2 ⟨x, hx, h.symm⟩
  · intro b hb
    obtain ⟨x, hx, rfl⟩ := List.mem_map.1 hb
    exact (lowestAfter_le (win ++ [a]) MaxUint64).2 x hx
  · rw [he, hlow]
  · rw [he]
  · rw [he]

/-- Witness for C2: the loop starts at 0; a report after 250 ms emits; reports with rates
600000 and 300000 follow after 300 and 400 ms and emit nothing; the report with rate 900000
after 460 ms emits the smallest of the three rates. -/
theorem rembLoop_emits_clamped_minimum_witness :
    ∃ m : Nat,
      m ∈ ([exampleArrival 600000 [2] 300, exampleArrival 300000 [3] 400] ++
            [exampleArrival 900000 [4] 460]).map (fun x => x.pkt.Bitrate) ∧
      (∀ b ∈ ([exampleArrival 600000 [2] 300, exampleArrival 300000 [3] 400] ++
            [exampleArrival 900000 [4] 460]).map (fun x => x.pkt.Bitrate), m ≤ b) ∧
      (⟨1, 300000, [4]⟩ : ReceiverEstimatedMaximumBitrate).Bitrate =
        (if m < 100000 then 100000 else if m > 5000000 then 5000000 else m) ∧
      (⟨1, 300000, [4]⟩ : ReceiverEstimatedMaximumBitrate).SSRCs =
        (exampleArrival 900000 [4] 460).pkt.SSRCs ∧
      (⟨1, 300000, [4]⟩ : ReceiverEstimatedMaximumBitrate).SenderSSRC = 1 :=
  rembLoop_emits_clamped_minimum 0 [exampleArrival 400000 [1] 250]
    [exampleArrival 600000 [2] 300, exampleArrival 300000 [3] 400]
    (exampleArrival 900000 [4] 460) [] ⟨1, 300000, [4]⟩
    (by decide) (Or.inr ⟨⟨1, 400000, [1]⟩, by decide⟩) (by decide) (by decide)

theorem iter_total (v : RembVars) (a : Arrival) (hc : v.rembCount + 1 < 2 ^ 64) :
    ∃ v' out, rembLoop.iter (200 * Millisecond) 100000 5000000 v a = some (v', out) ∧
      v'.rembCount ≤ v.rembCount + 1 := by
  have hm : (v.rembCount + 1) % 2 ^ 64 = v.rembCount + 1 := Nat.mod_eq_of_lt hc
  by_cases ht : a.sinceNow - v.lastRembTime > 200 * Millisecond
  · exact ⟨_, _, iter_emit v a ht (by rw [hm]; omega), by simp⟩
  · exact ⟨_, _, iter_quiet v a (by omega), le_of_eq hm⟩

theorem range_total (xs : List Arrival) :
    ∀ v : RembVars, v.rembCount + xs.length < 2 ^ 64 →
      ∃ v', (rembLoop.range (200 * Millisecond) 100000 5000000 v xs).vars = some v' ∧
        v'.rembCount ≤ v.rembCount + xs.length ∧
        (rembLoop.range (200 * Millisecond) 100000 5000000 v xs).sent.length = xs.length := by
  induction xs with
  | nil => intro v _; exact ⟨v, by simp [rembLoop.range]⟩
  | cons x rest ih =>
    intro v hv
    simp only [List.length_cons] at hv
    obtain ⟨v', out, hi, hcnt⟩ := iter_total v x (by omega)
    obtain ⟨v2, h1, h2, h3⟩ := ih v' (by omega)
    rw [range_cons_some v v' x rest out hi]
    exact ⟨v2, h1, by simp only [List.length_cons]; omega, by simp [h3]⟩

theorem range_append (xs : List Arrival) :
    ∀ (v : RembVars) (ys : List Arrival) (v1 : RembVars),
      (rembLoop.range (200 * Millisecond) 100000 5000000 v xs).vars = some v1 →
      rembLoop.range (200 * Millisecond) 100000 5000000 v (xs ++ ys) =
        { sent := (rembLoop.range (200 * Millisecond) 100000 5000000 v xs).sent ++
            (rembLoop.range (200 * Millisecond) 100000 5000000 v1 ys).sent,
          vars := (rembLoop.range (200 * Millisecond) 100000 5000000 v1 ys).vars } ∧
      (rembLoop.range (200 * Millisecond) 100000 5000000 v xs).sent.length = xs.length := by
  induction xs with
  | nil =>
    intro v ys v1 h
    simp [rembLoop.range] at h
    subst h
    simp [rembLoop.range]
  | cons x rest ih =>
    intro v ys v1 h
    cases hi : rembLoop.iter (200 * Millisecond) 100000 5000000 v x with
    | none =>
      rw [range_cons_none v x rest hi] at h
      simp at h
    | some r =>
      obtain ⟨v', out⟩ := r
      rw [range_cons_some v v' x rest out hi] at h ⊢
      rw [List.cons_append, range_cons_some v v' x _ out hi]
      obtain ⟨h1, h2⟩ := ih v' ys v1 h
      rw [h1]
      simp [h2]

theorem decision_at (xs : List Arrival) :
    ∀ (v : RembVars) (i : Nat) (a : Arrival), v.rembCount + xs.length < 2 ^ 64 →
      xs[i]? = some a →
      ∃ vi, (rembLoop.range (200 * Millisecond) 100000 5000000 v (xs.take i)).vars = some vi ∧
        (a.sinceNow - vi.lastRembTime ≤ 200 * Millisecond →
          (rembLoop.range (200 * Millisecond) 100000 5000000 v xs).sent[i]? = some none) ∧
        (a.sinceNow - vi.lastRembTime > 200 * Millisecond →
          ∃ e, (rembLoop.range (200 * Millisecond) 100000 5000000 v xs).sent[i]? =
            some (some e)) := by
  induction xs with
  | nil => intro v i a _ h; simp at h
  | cons x rest ih =>
    intro v i a hv h
    simp only [List.length_cons] at hv
    cases i with
    | zero =>
      simp at h
      subst h
      refine ⟨v, by simp [rembLoop.range], ?_, ?_⟩
      · intro hq
        rw [range_cons_some v _ x rest _ (iter_quiet v x hq)]
        simp
      · intro ht
        have hm : (v.rembCount + 1) % 2 ^ 64 = v.rembCount + 1 :=
          Nat.mod_eq_of_lt (by omega)
        rw [range_cons_some v _ x rest _ (iter_emit v x ht (by rw [hm]; omega))]
        simp only [List.getElem?_cons_zero]
        exact ⟨_, rfl⟩
    | succ j =>
      simp at h
      obtain ⟨v', out, hi, hcnt⟩ := iter_total v x (by omega)
      obtain ⟨vi, h1, h2, h3⟩ := ih v' j a (by omega) h
      rw [List.take_succ_cons, range_cons_some v v' x _ out hi,
        range_cons_some v v' x rest out hi]
      refine ⟨vi, h1, ?_, ?_⟩
      · intro hq; simpa using h2 hq
      · intro ht; simpa using h3 ht

theorem emit_after (xs : List Arrival) :
    ∀ (v : RembVars) (t0 : Int), (∀ a ∈ xs, a.sinceNow ≤ a.resetNow) →
      t0 ≤ v.lastRembTime →
      ∀ (j : Nat) (aj : Arrival) (ej : ReceiverEstimatedMaximumBitrate), xs[j]? = some aj →
        (rembLoop.range (200 * Millisecond) 100000 5000000 v xs).sent[j]? = some (some ej) →
        aj.sinceNow - t0 > 200 * Millisecond := by
  induction xs with
  | nil => intro v t0 _ _ j aj ej h; simp at h
  | cons x rest ih =>
    intro v t0 hclock ht j aj ej haj hej
    have hx : x.sinceNow ≤ x.resetNow := hclock x (by simp)
    have hms : (0 : Int) ≤ 200 * Millisecond := by decide
    cases hi : rembLoop.iter (200 * Millisecond) 100000 5000000 v x with
    | none =>
      rw [range_cons_none v x rest hi] at hej
      simp at hej
    | some r =>
      obtain ⟨v', out⟩ := r
      rw [range_cons_some v v' x rest out hi] at hej
      cases j with
      | zero =>
        simp at haj hej
        subst haj
        subst hej
        have := (iter_some_some v v' x ej hi).1
        omega
      | succ k =>
        simp at haj hej
        have hv' : t0 ≤ v'.lastRembTime := by
          cases out with
          | none => rw [(iter_some_none v v' x hi).2]; exact ht
          | some e =>
            have h1 := (iter_some_some v v' x e hi).1
            rw [(iter_some_some v v' x e hi).2.1]
            show t0 ≤ x.resetNow
            omega
        exact ih v' t0 (fun a ha => hclock a (by simp [ha])) hv' k aj ej haj hej

theorem emit_spacing (xs : List Arrival) :
    ∀ (v : RembVars), (∀ a ∈ xs, a.sinceNow ≤ a.resetNow) →
      ∀ (i j : Nat) (ai aj : Arrival) (ei ej : ReceiverEstimatedMaximumBitrate), i < j →
        xs[i]? = some ai → xs[j]? = some aj →
        (rembLoop.range (200 * Millisecond) 100000 5000000 v xs).sent[i]? = some (some ei) →
        (rembLoop.range (200 * Millisecond) 100000 5000000 v xs).sent[j]? = some (some ej) →
        aj.sinceNow - ai.resetNow > 200 * Millisecond := by
  induction xs with
  | nil => intro v _ i j ai aj ei ej _ h; simp at h
  | cons x rest ih =>
    intro v hclock i j ai aj ei ej hij hai haj hei hej
    have hrest : ∀ a ∈ rest, a.sinceNow ≤ a.resetNow := fun a ha => hclock a (by simp [ha])
    cases hi : rembLoop.iter (200 * Millisecond) 100000 5000000 v x with
    | none =>
      rw [range_cons_none v x rest hi] at hej
      simp at hej
    | some r =>
      obtain ⟨v', out⟩ := r
      rw [range_cons_some v v' x rest out hi] at hei hej
      cases j with
      | zero => omega
      | succ k =>
        simp at haj hej
        cases i with
        | zero =>
          simp at hai hei
          subst hai
          subst hei
          have hv' : x.resetNow ≤ v'.lastRembTime := by
            rw [(iter_some_some v v' x ei hi).2.1]
          exact emit_after rest v' x.resetNow hrest hv' k aj ej haj hej
        | succ l =>
          simp at hai hei
          exact ih v' hrest l k ai aj ei ej (by omega) hai haj hei hej

theorem last_emission_at (xs : List Arrival) :
    ∀ (v : RembVars) (i : Nat) (vi : RembVars),
      (rembLoop.range (200 * Millisecond) 100000 5000000 v (xs.take i)).vars = some vi →
      (vi.lastRembTime = v.lastRembTime ∧
        ∀ k, k < i → k < xs.length →
          (rembLoop.range (200 * Millisecond) 100000 5000000 v xs).sent[k]? = some none) ∨
      (∃ (k : Nat) (ak : Arrival) (ek : ReceiverEstimatedMaximumBitrate),
        k < i ∧ xs[k]? = some ak ∧
        (rembLoop.range (200 * Millisecond) 100000 5000000 v xs).sent[k]? = some (some ek) ∧
        vi.lastRembTime = ak.resetNow ∧
        ∀ l, k < l → l < i → l < xs.length →
          (rembLoop.range (200 * Millisecond) 100000 5000000 v xs).sent[l]? = some none) := by
  induction xs with
  | nil =>
    intro v i vi h
    simp [rembLoop.range] at h
    subst h
    exact Or.inl ⟨rfl, fun k _ hk => by simp at hk⟩
  | cons x rest ih =>
    intro v i vi h
    cases i with
    | zero =>
      simp [rembLoop.range] at h
      subst h
      exact Or.inl ⟨rfl, fun k hk _ => by omega⟩
    | succ j =>
      rw [List.take_succ_cons] at h
      cases hi : rembLoop.iter (200 * Millisecond) 100000 5000000 v x with
      | none =>
        rw [range_cons_none v x _ hi] at h
        simp at h
      | some r =>
        obtain ⟨v', out⟩ := r
        rw [range_cons_some v v' x _ out hi] at h
        rw [range_cons_some v v' x rest out hi]
        simp only at h
        rcases ih v' j vi h with ⟨h1, h2⟩ | ⟨k, ak, ek, hk, hak, hek, hlast, hq⟩
        · cases out with
          | none =>
            refine Or.inl ⟨by rw [h1, (iter_some_none v v' x hi).2], ?_⟩
            intro k hk hkl
            cases k with
            | zero => simp
            | succ k' =>
              simp only [List.getElem?_cons_succ]
              exact h2 k' (by omega) (by simpa using hkl)
          | some e =>
            refine Or.inr ⟨0, x, e, by omega, by simp, by simp, ?_, ?_⟩
            · rw [h1, (iter_some_some v v' x e hi).2.1]
            · intro l hl hlj hll
              cases l with
              | zero => omega
              | succ l' =>
                simp only [List.getElem?_cons_succ]
                exact h2 l' (by omega) (by simpa using hll)
        · refine Or.inr ⟨k + 1, ak, ek, by omega, by simpa using hak, by simpa using hek,
            hlast, ?_⟩
          intro l hl hlj hll
          cases l with
          | zero => omega
          | succ l' =>
            simp only [List.getElem?_cons_succ]
            exact hq l' (by omega) (by omega) (by simpa using hll)

/-- C4: the loop is fed reports whose iterations read a clock that does not run backwards
(and fewer than 2 ^ 64 of them, so that the uint64 report counter cannot wrap).  Every
report is processed.  When report number i arrives, `lastRembTime` holds the time of the last
emission, or of the loop start when nothing was emitted yet; arriving no more than 200 ms
after it the report causes no emission, arriving more than 200 ms after it the report
causes exactly one.  Any two emissions are more than 200 ms apart, whether measured between
the recorded emission times or between the arrivals, and of two reports that arrive less
than 200 ms apart at most one emits. -/
theorem rembLoop_rate_limit (start : Int) (arrivals : List Arrival)
    (hclock : ∀ a ∈ arrivals, a.sinceNow ≤ a.resetNow)
    (hlen : arrivals.length < 2 ^ 64) :
    (rembLoop start arrivals).sent.length = arrivals.length ∧
    (∀ (i : Nat) (a : Arrival), arrivals[i]? = some a →
      ∃ v, (rembLoop start (arrivals.take i)).vars = some v ∧
        ((v.lastRembTime = start ∧
            ∀ k, k < i → (rembLoop start arrivals).sent[k]? = some none) ∨
          (∃ (k : Nat) (ak : Arrival) (ek : ReceiverEstimatedMaximumBitrate),
            k < i ∧ arrivals[k]? = some ak ∧
            (rembLoop start arrivals).sent[k]? = some (some ek) ∧
            v.lastRembTime = ak.resetNow ∧
            ∀ l, k < l → l < i → (rembLoop start arrivals).sent[l]? = some none)) ∧
        (a.sinceNow - v.lastRembTime ≤ 200 * Millisecond →
          (rembLoop start arrivals).sent[i]? = some none) ∧
        (a.sinceNow - v.lastRembTime > 200 * Millisecond →
          ∃ e, (rembLoop start arrivals).sent[i]? = some (some e))) ∧
    (∀ (i j : Nat) (ai aj : Arrival) (ei ej : ReceiverEstimatedMaximumBitrate), i < j →
      arrivals[i]? = some ai → arrivals[j]? = some aj →
      (rembLoop start arrivals).sent[i]? = some (some ei) →
      (rembLoop start arrivals).sent[j]? = some (some ej) →
      aj.sinceNow - ai.resetNow > 200 * Millisecond ∧
      aj.resetNow - ai.resetNow > 200 * Millisecond ∧
      aj.sinceNow - ai.sinceNow > 200 * Millisecond) ∧
    (∀ (i j : Nat) (ai aj : Arrival), i < j →
      arrivals[i]? = some ai → arrivals[j]? = some aj →
      aj.sinceNow - ai.sinceNow < 200 * Millisecond →
      (rembLoop start arrivals).sent[i]? = some none ∨
      (rembLoop start arrivals).sent[j]? = some none) := by
  have hsp : ∀ (i j : Nat) (ai aj : Arrival) (ei ej : ReceiverEstimatedMaximumBitrate), i < j →
      arrivals[i]? = some ai → arrivals[j]? = some aj →
      (rembLoop start arrivals).sent[i]? = some (some ei) →
      (rembLoop start arrivals).sent[j]? = some (some ej) →
      aj.sinceNow - ai.resetNow > 200 * Millisecond ∧
      aj.resetNow - ai.resetNow > 200 * Millisecond ∧
      aj.sinceNow - ai.sinceNow > 200 * Millisecond := by
    intro i j ai aj ei ej hij hai haj hei hej
    rw [rembLoop_eq] at hei hej
    have h := emit_spacing arrivals _ hclock i j ai aj ei ej hij hai haj hei hej
    have h1 := hclock ai (List.getElem?_mem hai)
    have h2 := hclock aj (List.getElem?_mem haj)
    exact ⟨h, by omega, by omega⟩
  have hdec : ∀ (i : Nat) (a : Arrival), arrivals[i]? = some a →
      ∃ v, (rembLoop start (arrivals.take i)).vars = some v ∧
        (a.sinceNow - v.lastRembTime ≤ 200 * Millisecond →
          (rembLoop start arrivals).sent[i]? = some none) ∧
        (a.sinceNow - v.lastRembTime > 200 * Millisecond →
          ∃ e, (rembLoop start arrivals).sent[i]? = some (some e)) := by
    intro i a ha
    simp only [rembLoop_eq]
    exact decision_at arrivals _ i a (by simpa using hlen) ha
  refine ⟨?_, ?_, hsp, ?_⟩
  · rw [rembLoop_eq]
    obtain ⟨_, _, _, h⟩ := range_total arrivals
      { lastRembTime := start, lowest := MaxUint64, rembCount := 0, rembTotalRate := 0 }
      (by simpa using hlen)
    exact h
  · intro i a ha
    obtain ⟨v, hv, hq, ht⟩ := hdec i a ha
    have hi : i < arrivals.length := by
      rcases Nat.lt_or_ge i arrivals.length with h | h
      · exact h
      · rw [List.getElem?_eq_none h] at ha; simp at ha
    refine ⟨v, hv, ?_, hq, ht⟩
    rw [rembLoop_eq] at hv
    rcases last_emission_at arrivals _ i v hv with ⟨h1, h2⟩ | ⟨k, ak, ek, hk, hak, hek, hl, hq2⟩
    · exact Or.inl ⟨h1, fun k hk => by rw [rembLoop_eq]; exact h2 k hk (by omega)⟩
    · exact Or.inr ⟨k, ak, ek, hk, hak, by rw [rembLoop_eq]; exact hek, hl,
        fun l h1 h2 => by rw [rembLoop_eq]; exact hq2 l h1 h2 (by omega)⟩
  · intro i j ai aj hij hai haj hclose
    obtain ⟨vi, _, hqi, hti⟩ := hdec i ai hai
    obtain ⟨vj, _, hqj, htj⟩ := hdec j aj haj
    by_cases hi : ai.sinceNow - vi.lastRembTime ≤ 200 * Millisecond
    · exact Or.inl (hqi hi)
    · by_cases hj : aj.sinceNow - vj.lastRembTime ≤ 200 * Millisecond
      · exact Or.inr (hqj hj)
      · obtain ⟨ei, hei⟩ := hti (by omega)
        obtain ⟨ej, hej⟩ := htj (by omega)
        have := (hsp i j ai aj ei ej hij hai haj hei hej).2.2
        omega

/-- Witness for C4: loop started at 0, reports after 250, 300 and 460 ms. -/
theorem rembLoop_rate_limit_witness :
    (rembLoop 0 [exampleArrival 400000 [1] 250, exampleArrival 600000 [2] 300,
        exampleArrival 300000 [3] 460]).sent.length =
      [exampleArrival 400000 [1] 250, exampleArrival 600000 [2] 300,
        exampleArrival 300000 [3] 460].length ∧
    ((rembLoop 0 [exampleArrival 400000 [1] 250, exampleArrival 600000 [2] 300,
        exampleArrival 300000 [3] 460]).sent[0]? = some none ∨
     (rembLoop 0 [exampleArrival 400000 [1] 250, exampleArrival 600000 [2] 300,
        exampleArrival 300000 [3] 460]).sent[1]? = some none) :=
  ⟨(rembLoop_rate_limit 0 [exampleArrival 400000 [1] 250, exampleArrival 600000 [2] 300,
      exampleArrival 300000 [3] 460] (by decide) (by decide)).1,
   (rembLoop_rate_limit 0 [exampleArrival 400000 [1] 250, exampleArrival 600000 [2] 300,
      exampleArrival 300000 [3] 460] (by decide) (by decide)).2.2.2 0 1
      (exampleArrival 400000 [1] 250) (exampleArrival 600000 [2] 300)
      (by decide) rfl rfl (by decide)⟩

/-- C5: a run of `rembLoop` has processed the reports `pre` and holds the variables `v`;
the next report `a` is processed.  If `a` makes the loop emit, the variables afterwards are
the empty ones: count 0, sum 0, running minimum `math.MaxUint64`, and `lastRembTime` the
clock reading taken for that emission.  If `a` emits nothing, the count has grown by one,
the Bitrate of `a` has been added to the sum (uint64 arithmetic), the running minimum is the
Bitrate of `a` when that is smaller and unchanged otherwise, and `lastRembTime` is
unchanged. -/
theorem rembLoop_vars_after_report (start : Int) (pre : List Arrival) (a : Arrival)
    (v : RembVars) (hv : (rembLoop start pre).vars = some v) :
    (∀ e, (rembLoop start (pre ++ [a])).sent[pre.length]? = some (some e) →
      (rembLoop start (pre ++ [a])).vars =
        some { lastRembTime := a.resetNow, lowest := MaxUint64, rembCount := 0,
               rembTotalRate := 0 }) ∧
    ((rembLoop start (pre ++ [a])).sent[pre.length]? = some none →
      (rembLoop start (pre ++ [a])).vars =
        some { lastRembTime := v.lastRembTime,
               lowest := if a.pkt.Bitrate < v.lowest then a.pkt.Bitrate else v.lowest,
               rembCount := (v.rembCount + 1) % 2 ^ 64,
               rembTotalRate := (v.rembTotalRate + a.pkt.Bitrate) % 2 ^ 64 } ∧
      (pre.length + 1 < 2 ^ 64 → (v.rembCount + 1) % 2 ^ 64 = v.rembCount + 1) ∧
      (v.rembTotalRate + a.pkt.Bitrate < 2 ^ 64 →
        (v.rembTotalRate + a.pkt.Bitrate) % 2 ^ 64 = v.rembTotalRate + a.pkt.Bitrate)) := by
  rw [rembLoop_eq] at hv
  obtain ⟨happ, hlen⟩ := range_append pre _ [a] v hv
  have hidx : ∀ out, (rembLoop start (pre ++ [a])).sent[pre.length]? = some out →
      ∃ v', rembLoop.iter (200 * Millisecond) 100000 5000000 v a = some (v', out) ∧
        (rembLoop start (pre ++ [a])).vars = some v' := by
    intro out h
    rw [rembLoop_eq, happ] at h
    rw [rembLoop_eq, happ]
    simp only at h ⊢
    rw [List.getElem?_append_right (by omega), hlen, Nat.sub_self] at h
    cases hi : rembLoop.iter (200 * Millisecond) 100000 5000000 v a with
    | none =>
      rw [range_cons_none v a [] hi] at h
      simp at h
    | some r =>
      obtain ⟨v', o⟩ := r
      rw [range_cons_some v v' a [] o hi] at h ⊢
      simp at h
      subst h
      exact ⟨v', rfl, by simp [rembLoop.range]⟩
  constructor
  · intro e he
    obtain ⟨v', hi, hvars⟩ := hidx _ he
    rw [hvars, (iter_some_some v v' a e hi).2.1]
  · intro hn
    obtain ⟨v', hi, hvars⟩ := hidx _ hn
    refine ⟨by rw [hvars, (iter_some_none v v' a hi).2], ?_, fun h => Nat.mod_eq_of_lt h⟩
    intro hl
    obtain ⟨v2, h1, h2, _⟩ := range_total pre
      { lastRembTime := start, lowest := MaxUint64, rembCount := 0, rembTotalRate := 0 }
      (by simp; omega)
    rw [hv] at h1
    simp at h1
    subst h1
    simp at h2
    exact Nat.mod_eq_of_lt (by omega)

/-- Witness for C5: loop started at 0; the report after 250 ms has emitted, the report after
300 ms emits nothing. -/
theorem rembLoop_vars_after_report_witness :
    (rembLoop 0 ([exampleArrival 400000 [1] 250] ++ [exampleArrival 600000 [2] 300])).vars =
      some { lastRembTime := 250 * Millisecond,
             lowest := if (exampleArrival 600000 [2] 300).pkt.Bitrate < MaxUint64
               then (exampleArrival 600000 [2] 300).pkt.Bitrate else MaxUint64,
             rembCount := (0 + 1) % 2 ^ 64,
             rembTotalRate := (0 + (exampleArrival 600000 [2] 300).pkt.Bitrate) % 2 ^ 64 } :=
  ((rembLoop_vars_after_report 0 [exampleArrival 400000 [1] 250]
      (exampleArrival 600000 [2] 300)
      { lastRembTime := 250 * Millisecond, lowest := MaxUint64, rembCount := 0,
        rembTotalRate := 0 } (by decide)).2 (by decide)).1

end Sfu
